import Mathlib

/-!
# Monkey-test control surface of dragonboat (`monkey.go`)

A shallow embedding of the test-only control surface: the partition flag,
the process-wide tunables, the hook setters of the node host, the digest
accessors of a node and the diagnostic dump.

Conventions of the embedding.

* Go `uint32` / `uint64` values are natural numbers; no arithmetic is done on
  them in this file, so no wrap-around occurs.
* A Go `error` is an `Option Error` (`none` is `nil`).
* A Go function that may `panic` returns a `Result`.
* A Go `map[uint64]string` is an association list `GoMap`; `GoMap.set` is the
  assignment `m[k] = v`, `GoMap.get` the lookup, and the order of the list is
  the order in which `range` happens to visit the keys.
* The logger `plog` and the log sink of the raft peer are explicit lists that
  are threaded through the operations.
-/

namespace Dragonboat

/-! ## Basic types -/

/-- Go `error` values, identified by their message. -/
abbrev Error := String

/-- Outcome of a Go call that either returns or panics. -/
inductive Result (α : Type) where
  | ok (a : α)
  | panic (e : Error)
  deriving DecidableEq, Repr

/-- Sequencing of two calls: a panic of the first aborts the second. -/
def Result.bind {α β : Type} : Result α → (α → Result β) → Result β
  | .ok a, f => f a
  | .panic e, _ => .panic e

/-- Whether a call returned normally. -/
def Result.returns {α : Type} : Result α → Bool
  | .ok _ => true
  | .panic _ => false

/-! ## Partition flag (`testPartitionState`) -/

/-- The struct `testPartitionState` with its single `uint32` field. -/
structure testPartitionState where
  testPartitioned : Nat
  deriving DecidableEq, Repr

/-- The zero value of `testPartitionState`, as Go constructs it. -/
def testPartitionState.zero : testPartitionState := ⟨0⟩

/-- The package logger: the lines written so far. -/
abbrev Plog := List String

/-- Go function `plog.Infof` with a constant format string. -/
def Infof (plog : Plog) (line : String) : Plog := plog ++ [line]

/-- Go function `atomic.StoreUint32(&p.testPartitioned, v)`. -/
def StoreUint32 (_p : testPartitionState) (v : Nat) : testPartitionState :=
  ⟨v⟩

/-- Go function `atomic.LoadUint32(&p.testPartitioned)`. -/
def LoadUint32 (p : testPartitionState) : Nat := p.testPartitioned

/-- Go function `PartitionNode`: logs, then stores 1 into the flag. -/
def testPartitionState.PartitionNode (p : testPartitionState) (plog : Plog) :
    testPartitionState × Plog :=
  let plog1 := Infof plog "entered partition test mode"
  (StoreUint32 p 1, plog1)

/-- Go function `RestorePartitionedNode`: stores 0 into the flag, then logs. -/
def testPartitionState.RestorePartitionedNode (p : testPartitionState)
    (plog : Plog) : testPartitionState × Plog :=
  let p1 := StoreUint32 p 0
  (p1, Infof plog "restored from partition test mode")

/-- Go function `isPartitioned`: the flag equals 1. -/
def testPartitionState.isPartitioned (p : testPartitionState) : Bool :=
  LoadUint32 p == 1

/-- Go function `IsPartitioned`: delegates to `isPartitioned`. -/
def testPartitionState.IsPartitioned (p : testPartitionState) : Bool :=
  p.isPartitioned

/-! ## Process-wide tunables -/

/-- The seven package-level variables written by the setters. -/
structure Tunables where
  pendingProposalShards : Nat
  taskBatchSize : Nat
  incomingProposalsMaxLen : Nat
  incomingReadIndexMaxLen : Nat
  receiveQueueLen : Nat
  snapshotWorkerCount : Nat
  applyWorkerCount : Nat
  deriving DecidableEq, Repr

/-- Go function `SetPendingProposalShards`. -/
def SetPendingProposalShards (sz : Nat) (g : Tunables) : Tunables :=
  { g with pendingProposalShards := sz }

/-- Go function `SetTaskBatchSize`. -/
def SetTaskBatchSize (sz : Nat) (g : Tunables) : Tunables :=
  { g with taskBatchSize := sz }

/-- Go function `SetIncomingProposalsMaxLen`. -/
def SetIncomingProposalsMaxLen (sz : Nat) (g : Tunables) : Tunables :=
  { g with incomingProposalsMaxLen := sz }

/-- Go function `SetIncomingReadIndexMaxLen`. -/
def SetIncomingReadIndexMaxLen (sz : Nat) (g : Tunables) : Tunables :=
  { g with incomingReadIndexMaxLen := sz }

/-- Go function `SetReceiveQueueLen`. -/
def SetReceiveQueueLen (v : Nat) (g : Tunables) : Tunables :=
  { g with receiveQueueLen := v }

/-- Go function `SetSnapshotWorkerCount`. -/
def SetSnapshotWorkerCount (count : Nat) (g : Tunables) : Tunables :=
  { g with snapshotWorkerCount := count }

/-- Go function `SetApplyWorkerCount`. -/
def SetApplyWorkerCount (count : Nat) (g : Tunables) : Tunables :=
  { g with applyWorkerCount := count }

/-- The largest `uint64`. -/
def maxUint64 : Nat := 2 ^ 64 - 1

/-! ## Go maps from replica id to address -/

/-- A Go `map[uint64]string`, as the list of its entries. -/
abbrev GoMap := List (Nat × String)

/-- The empty map, `make(map[uint64]string)`. -/
def GoMap.make : GoMap := []

/-- The lookup `m[k]`, with `none` for an absent key. -/
def GoMap.get : GoMap → Nat → Option String
  | [], _ => none
  | (k1, v1) :: rest, k => if k1 = k then some v1 else GoMap.get rest k

/-- The assignment `m[k] = v`: it overwrites the entry of `k` or adds one. -/
def GoMap.set : GoMap → Nat → String → GoMap
  | [], k, v => [(k, v)]
  | (k1, v1) :: rest, k, v =>
    if k1 = k then (k, v) :: rest else (k1, v1) :: GoMap.set rest k v

/-- The keys of a map, in the order of its entries. -/
def GoMap.keys (m : GoMap) : List Nat := m.map Prod.fst

/-- The map obtained from the empty one by a sequence of assignments. -/
def GoMap.ofInserts (ins : List (Nat × String)) : GoMap :=
  ins.foldl (fun m kv => GoMap.set m kv.1 kv.2) GoMap.make

/-! ## Collaborators of a node -/

/-- The membership record; the control surface reads its `Addresses` map. -/
structure Membership where
  Addresses : GoMap
  deriving DecidableEq, Repr

/-- The state machine behind a node, given by what its accessors return:
`GetHash` returns a value and an error, the other accessors a value. -/
structure StateMachine where
  GetHash : Nat × Option Error
  GetSessionHash : Nat
  GetLastApplied : Nat
  GetMembership : Membership

/-- The address resolver: `Resolve clusterID nodeID` returns an address, a
connection key and an error. -/
structure NodeRegistry where
  Resolve : Nat → Nat → String × String × Option Error

/-- The raft peer of a node: its internal protocol state. -/
structure Peer where
  role : Nat
  term : Nat
  firstIndex : Nat
  lastIndex : Nat
  deriving DecidableEq, Repr

/-- One record of the log sink: protocol state and address map. -/
structure DumpRecord where
  peer : Peer
  addrMap : GoMap
  deriving DecidableEq, Repr

/-- The log sink: the records emitted so far. -/
abbrev LogSink := List DumpRecord

/-- Modelled from the spec: the peer method `DumpRaftInfoToLog` of the raft
package is not part of this file; it emits the address map together with the
internal protocol state (role, term, log indices) to the log sink. -/
def Peer.DumpRaftInfoToLog (p : Peer) (addrMap : GoMap) (sink : LogSink) :
    LogSink :=
  sink ++ [⟨p, addrMap⟩]

/-- The ids of a map in increasing order. -/
def GoMap.sortedKeys (m : GoMap) : List Nat :=
  (GoMap.keys m).insertionSort (fun a b => a ≤ b)

/-- The canonical serialization of a map: its entries sorted by id. -/
def GoMap.canonical (m : GoMap) : List (Nat × String) :=
  (GoMap.sortedKeys m).map (fun k => (k, (GoMap.get m k).getD ""))

/-- Modelled from the spec: the state machine method `GetMembershipHash` (rsm
package) is not part of this file; it hashes the canonical (id-sorted)
serialization of the current membership configuration into a fixed-width
value. The hash primitive `digest` is a parameter. -/
def StateMachine.GetMembershipHash (digest : List (Nat × String) → Nat)
    (sm : StateMachine) : Nat :=
  digest (GoMap.canonical sm.GetMembership.Addresses) % 2 ^ 64

/-! ## The node -/

/-- The fields of `node` that the control surface touches; `p` is the raft
peer pointer, `none` when it is nil. -/
structure node where
  clusterID : Nat
  nodeID : Nat
  raftAddress : String
  sm : StateMachine
  nodeRegistry : NodeRegistry
  p : Option Peer

/-- Go function `GetLastApplied`. -/
def node.GetLastApplied (n : node) : Nat := n.sm.GetLastApplied

/-- Go function `getStateMachineHash`: panics with the error of `GetHash`, if any. -/
def node.getStateMachineHash (n : node) : Result Nat :=
  match n.sm.GetHash with
  | (_, some err) => Result.panic err
  | (v, none) => Result.ok v

/-- Go function `GetStateMachineHash`. -/
def node.GetStateMachineHash (n : node) : Result Nat :=
  n.getStateMachineHash

/-- Go function `getSessionHash`. -/
def node.getSessionHash (n : node) : Nat := n.sm.GetSessionHash

/-- Go function `GetSessionHash`. -/
def node.GetSessionHash (n : node) : Nat := n.getSessionHash

/-- Go function `getMembershipHash`. -/
def node.getMembershipHash (digest : List (Nat × String) → Nat) (n : node) :
    Nat :=
  n.sm.GetMembershipHash digest

/-- Go function `GetMembershipHash`. -/
def node.GetMembershipHash (digest : List (Nat × String) → Nat) (n : node) :
    Nat :=
  n.getMembershipHash digest

/-- The body of the `range m.Addresses` loop of `dumpRaftInfoToLog`, run over
the entries in the order `range` visits them. -/
def node.dumpLoop (n : node) : List (Nat × String) → GoMap → GoMap
  | [], addrMap => addrMap
  | (nodeID, _) :: rest, addrMap =>
    if nodeID = n.nodeID then
      n.dumpLoop rest (GoMap.set addrMap nodeID n.raftAddress)
    else
      match n.nodeRegistry.Resolve n.clusterID nodeID with
      | (v, _, none) => n.dumpLoop rest (GoMap.set addrMap nodeID v)
      | (_, _, some _) => n.dumpLoop rest addrMap

/-- The address map that `dumpRaftInfoToLog` assembles. -/
def node.dumpAddrMap (n : node) : GoMap :=
  n.dumpLoop n.sm.GetMembership.Addresses GoMap.make

/-- Go function `dumpRaftInfoToLog`: with a peer, assembles the address map and hands it
to the peer; with a nil peer, does nothing. -/
def node.dumpRaftInfoToLog (n : node) (sink : LogSink) : Result LogSink :=
  match n.p with
  | some p => Result.ok (p.DumpRaftInfoToLog n.dumpAddrMap sink)
  | none => Result.ok sink

/-- Go function `DumpRaftInfoToLog`: `dumpRaftInfoToLog` under the raft mutex. -/
def node.DumpRaftInfoToLog (n : node) (sink : LogSink) : Result LogSink :=
  n.dumpRaftInfoToLog sink

/-! ## Transport hooks -/

/-- A message batch on its way to the network. -/
abbrev MessageBatch := List Nat

/-- A snapshot stream chunk on its way to the network. -/
abbrev Chunk := List Nat

/-- What a hook returns: pass-through, drop, or mutate-and-forward. -/
inductive HookVerdict (α : Type) where
  | passThrough
  | drop
  | forward (a : α)

/-- A message-batch hook; `name` identifies the function value. -/
structure SendMessageBatchFunc where
  name : Nat
  run : MessageBatch → HookVerdict MessageBatch

/-- A stream-chunk hook; `name` identifies the function value. -/
structure StreamChunkSendFunc where
  name : Nat
  run : Chunk → HookVerdict Chunk

/-- Modelled from the spec: the type `Transport` of the transport package is
not part of this file; it holds one slot per hook kind, empty by default. -/
structure Transport where
  preSendMessageBatch : Option SendMessageBatchFunc
  preStreamChunkSend : Option StreamChunkSendFunc

/-- Modelled from the spec: registering a message-batch hook totally replaces
the previous one of that kind. -/
def Transport.SetPreSendMessageBatchHook (t : Transport)
    (f : SendMessageBatchFunc) : Transport :=
  { t with preSendMessageBatch := some f }

/-- Modelled from the spec: registering a stream-chunk hook totally replaces
the previous one of that kind. -/
def Transport.SetPreStreamChunkSendHook (t : Transport)
    (f : StreamChunkSendFunc) : Transport :=
  { t with preStreamChunkSend := some f }

/-- What a verdict lets through to the network. -/
def HookVerdict.apply {α : Type} (payload : α) : HookVerdict α → Option α
  | .passThrough => some payload
  | .drop => none
  | .forward a => some a

/-- Modelled from the spec: one send of a message batch. The registered hook
is invoked before the payload reaches the network; with no hook the payload
passes through. Returns the names of the hooks invoked and what reaches the
network. -/
def Transport.sendMessageBatch (t : Transport) (mb : MessageBatch) :
    List Nat × Option MessageBatch :=
  match t.preSendMessageBatch with
  | none => ([], some mb)
  | some f => ([f.name], (f.run mb).apply mb)

/-- Modelled from the spec: one send of a stream chunk, as for a batch. -/
def Transport.sendChunk (t : Transport) (c : Chunk) :
    List Nat × Option Chunk :=
  match t.preStreamChunkSend with
  | none => ([], some c)
  | some f => ([f.name], (f.run c).apply c)

/-- The names of the hooks invoked by a sequence of batch sends. -/
def Transport.batchHooksInvoked (t : Transport) (mbs : List MessageBatch) :
    List Nat :=
  (mbs.map (fun mb => (t.sendMessageBatch mb).1)).flatten

/-- The names of the hooks invoked by a sequence of chunk sends. -/
def Transport.chunkHooksInvoked (t : Transport) (cs : List Chunk) :
    List Nat :=
  (cs.map (fun c => (t.sendChunk c).1)).flatten

/-- The interface value held by a node host: the transport of the transport
package, or a value of another dynamic type. -/
inductive ITransport where
  | transport (t : Transport)
  | other

/-- The field of `NodeHost` that the hook setters touch. -/
structure NodeHost where
  transport : ITransport

/-- Go function `SetTransportDropBatchHook`: asserts the concrete transport type (a failed
assertion panics) and registers the hook on it. -/
def NodeHost.SetTransportDropBatchHook (nh : NodeHost)
    (f : SendMessageBatchFunc) : Result NodeHost :=
  match nh.transport with
  | .transport t =>
    Result.ok { nh with transport := .transport (t.SetPreSendMessageBatchHook f) }
  | .other => Result.panic "interface conversion"

/-- Go function `SetPreStreamChunkSendHook`: asserts the concrete transport type (a failed
assertion panics) and registers the hook on it. -/
def NodeHost.SetPreStreamChunkSendHook (nh : NodeHost)
    (f : StreamChunkSendFunc) : Result NodeHost :=
  match nh.transport with
  | .transport t =>
    Result.ok { nh with transport := .transport (t.SetPreStreamChunkSendHook f) }
  | .other => Result.panic "interface conversion"

/-- The entry that one pass of the loop body of `dumpRaftInfoToLog` writes for
the id `k`, if it writes one: the configured address for the node itself, the
resolved address for a peer whose resolution reports no error. -/
def node.entryFor (n : node) (k : Nat) : Option String :=
  if k = n.nodeID then some n.raftAddress
  else
    match n.nodeRegistry.Resolve n.clusterID k with
    | (v, _, none) => some v
    | (_, _, some _) => none

/-! ## Indexing of the tunables, and sample values -/

/-- The seven setters, in the order in which the source declares them. -/
def setter : Fin 7 → Nat → Tunables → Tunables
  | 0 => SetPendingProposalShards
  | 1 => SetTaskBatchSize
  | 2 => SetIncomingProposalsMaxLen
  | 3 => SetIncomingReadIndexMaxLen
  | 4 => SetReceiveQueueLen
  | 5 => SetSnapshotWorkerCount
  | 6 => SetApplyWorkerCount

/-- The seven package-level variables, in the order of their setters. -/
def tunable : Fin 7 → Tunables → Nat
  | 0 => Tunables.pendingProposalShards
  | 1 => Tunables.taskBatchSize
  | 2 => Tunables.incomingProposalsMaxLen
  | 3 => Tunables.incomingReadIndexMaxLen
  | 4 => Tunables.receiveQueueLen
  | 5 => Tunables.snapshotWorkerCount
  | 6 => Tunables.applyWorkerCount

/-- A sample assignment of the tunables. -/
def sampleTunables : Tunables := ⟨16, 512, 2048, 4096, 1024, 64, 16⟩

/-- A sample raft peer. -/
def samplePeer : Peer := ⟨2, 7, 1, 42⟩

/-- A resolver that knows replica 2 only. -/
def sampleRegistry : NodeRegistry :=
  ⟨fun _ nodeID =>
    if nodeID = 2 then ("10.0.0.2:9000", "key-2", none)
    else ("", "", some "address not resolved")⟩

/-- A state machine whose digest function succeeds, with members 1, 2, 3. -/
def sampleSM : StateMachine :=
  ⟨(99, none), 5, 10, ⟨[(3, "10.0.0.3:9000"), (1, "10.0.0.1:9000"), (2, "10.0.0.2:9000")]⟩⟩

/-- A state machine whose digest function fails. -/
def failingSM : StateMachine :=
  ⟨(0, some "hash failed"), 5, 10, ⟨[(1, "10.0.0.1:9000")]⟩⟩

/-- Replica 1 of group 100, a member of its own membership view. -/
def sampleNode : node :=
  ⟨100, 1, "10.0.0.1:9000", sampleSM, sampleRegistry, some samplePeer⟩

/-- Replica 1 of group 100 over a state machine that cannot hash. -/
def failingNode : node :=
  ⟨100, 1, "10.0.0.1:9000", failingSM, sampleRegistry, some samplePeer⟩

/-- Replica 9 of group 100, which is not in the `Addresses` map of its
membership view (as an observer is not). -/
def observerNode : node :=
  ⟨100, 9, "10.0.0.9:9000", sampleSM, sampleRegistry, some samplePeer⟩

/-- Replica 1 of group 100 before its raft peer exists. -/
def peerlessNode : node :=
  ⟨100, 1, "10.0.0.1:9000", sampleSM, sampleRegistry, none⟩

/-- A sample hash primitive over a serialization. -/
def sampleDigest (l : List (Nat × String)) : Nat :=
  l.foldl (fun h kv => h * 31 + kv.1 * 7 + kv.2.length) 17

/-- A replica whose membership was built by inserting 1, 2, 3 in that order. -/
def replicaA : node :=
  ⟨100, 1, "10.0.0.1:9000",
    ⟨(99, none), 5, 10,
      ⟨GoMap.ofInserts [(1, "10.0.0.1:9000"), (2, "10.0.0.2:9000"), (3, "10.0.0.3:9000")]⟩⟩,
    sampleRegistry, some samplePeer⟩

/-- A replica whose membership was built by inserting 3, 1, 2 in that order. -/
def replicaB : node :=
  ⟨100, 2, "10.0.0.2:9000",
    ⟨(99, none), 5, 10,
      ⟨GoMap.ofInserts [(3, "10.0.0.3:9000"), (1, "10.0.0.1:9000"), (2, "10.0.0.2:9000")]⟩⟩,
    sampleRegistry, some samplePeer⟩

/-- A message-batch hook that drops every batch. -/
def dropAll : SendMessageBatchFunc := ⟨1, fun _ => HookVerdict.drop⟩

/-- A message-batch hook that lets every batch pass. -/
def passAll : SendMessageBatchFunc := ⟨2, fun _ => HookVerdict.passThrough⟩

/-- A stream-chunk hook that drops every chunk. -/
def dropChunks : StreamChunkSendFunc := ⟨3, fun _ => HookVerdict.drop⟩

/-- A stream-chunk hook that truncates every chunk to its first element. -/
def truncateChunks : StreamChunkSendFunc :=
  ⟨4, fun c => HookVerdict.forward (c.take 1)⟩

/-- A node host over a transport with no hook registered. -/
def sampleHost : NodeHost := ⟨ITransport.transport ⟨none, none⟩⟩

/-! ## Partition flag -/

/-- C1: whatever the prior flag value, right after `PartitionNode` the next
`IsPartitioned` returns true, and right after `RestorePartitionedNode` it
returns false; no call is needed in between. -/
theorem isPartitioned_after_set (p : testPartitionState) (plog : Plog) :
    (p.PartitionNode plog).1.IsPartitioned = true ∧
    (p.RestorePartitionedNode plog).1.IsPartitioned = false :=
  ⟨rfl, rfl⟩

/-- C2: `PartitionNode` and `RestorePartitionedNode` are idempotent on the
partition state: a second call leaves the state the first call produced, and
the flag reads true, respectively false; the calls are total, so none
fails. -/
theorem partition_idempotent (p : testPartitionState) (l1 l2 : Plog) :
    ((p.PartitionNode l1).1.PartitionNode l2).1 = (p.PartitionNode l1).1 ∧
    ((p.PartitionNode l1).1.PartitionNode l2).1.IsPartitioned = true ∧
    ((p.RestorePartitionedNode l1).1.RestorePartitionedNode l2).1
      = (p.RestorePartitionedNode l1).1 ∧
    ((p.RestorePartitionedNode l1).1.RestorePartitionedNode l2).1.IsPartitioned
      = false :=
  ⟨rfl, rfl, rfl, rfl⟩

/-- C9: the zero value of `testPartitionState`, on which no setter has been
called, is not partitioned. -/
theorem zero_not_partitioned :
    testPartitionState.zero.IsPartitioned = false :=
  rfl

/-! ## Tunables -/

/-- C5: every setter stores its argument unchanged, for every argument; in
particular for 0 and for the largest `uint64`. -/
theorem setter_stores_argument (i : Fin 7) (v : Nat) (g : Tunables) :
    tunable i (setter i v g) = v ∧
    tunable i (setter i 0 g) = 0 ∧
    tunable i (setter i maxUint64 g) = 2 ^ 64 - 1 := by
  fin_cases i <;> exact ⟨rfl, rfl, rfl⟩

/-- C10: a setter leaves the six other tunables as they were, and calls to
two distinct setters commute. -/
theorem setter_frame (i j : Fin 7) (a b : Nat) (g : Tunables) (h : i ≠ j) :
    tunable j (setter i a g) = tunable j g ∧
    setter i a (setter j b g) = setter j b (setter i a g) := by
  fin_cases i <;> fin_cases j <;> first
    | exact absurd rfl h
    | exact ⟨rfl, rfl⟩

/-- Witness of `setter_frame`: setting the task batch size leaves the receive
queue length alone and commutes with setting it. -/
theorem setter_frame_witness :
    (1 : Fin 7) ≠ 4 ∧
    tunable 4 (setter 1 7 sampleTunables) = tunable 4 sampleTunables ∧
    setter 1 7 (setter 4 0 sampleTunables)
      = setter 4 0 (setter 1 7 sampleTunables) :=
  ⟨by decide, setter_frame 1 4 7 0 sampleTunables (by decide)⟩

/-! ## State machine digest -/

/-- C4: `GetStateMachineHash` returns exactly the value of the state machine
digest function when that function reports no error, panics with that
function's error when it reports one, and panics in no other case. -/
theorem getStateMachineHash_spec (n : node) :
    (∀ v, n.sm.GetHash = (v, none) → n.GetStateMachineHash = Result.ok v) ∧
    (∀ v e, n.sm.GetHash = (v, some e) →
      n.GetStateMachineHash = Result.panic e) ∧
    (n.GetStateMachineHash.returns = false ↔ n.sm.GetHash.2 ≠ none) := by
  unfold node.GetStateMachineHash node.getStateMachineHash
  rcases h : n.sm.GetHash with ⟨v, _ | e⟩
  · refine ⟨fun w hw => ?_, fun w e hw => ?_, ?_⟩
    · cases hw; rfl
    · cases hw
    · simp [Result.returns]
  · refine ⟨fun w hw => ?_, fun w e1 hw => ?_, ?_⟩
    · cases hw
    · cases hw; rfl
    · simp [Result.returns]

/-- Witness of `getStateMachineHash_spec`: a state machine that hashes to 99
gives 99, and one that fails with an error makes the call panic with it. -/
theorem getStateMachineHash_spec_witness :
    sampleNode.sm.GetHash = (99, none) ∧
    sampleNode.GetStateMachineHash = Result.ok 99 ∧
    failingNode.sm.GetHash = (0, some "hash failed") ∧
    failingNode.GetStateMachineHash = Result.panic "hash failed" :=
  ⟨rfl, (getStateMachineHash_spec sampleNode).1 99 rfl, rfl,
    (getStateMachineHash_spec failingNode).2.1 0 "hash failed" rfl⟩

/-! ## Diagnostic dump -/

/-- Lookup after an assignment. -/
theorem GoMap.get_set (m : GoMap) (k : Nat) (v : String) (k2 : Nat) :
    GoMap.get (GoMap.set m k v) k2 = if k = k2 then some v else GoMap.get m k2 := by
  induction m with
  | nil => simp [GoMap.set, GoMap.get]
  | cons hd tl ih =>
    obtain ⟨k1, v1⟩ := hd
    by_cases h1 : k1 = k
    · subst h1
      by_cases h2 : k1 = k2 <;> simp [GoMap.set, GoMap.get, h2]
    · by_cases h2 : k1 = k2
      · subst h2
        have h3 : ¬ k = k1 := fun h => h1 h.symm
        simp [GoMap.set, GoMap.get, h1, h3]
      · simp [GoMap.set, GoMap.get, h1, h2, ih]

/-- Lookup in the map the loop of `dumpRaftInfoToLog` leaves behind: an id
that the loop visits and writes holds the written entry, every other id holds
what it held before the loop. -/
theorem node.get_dumpLoop (n : node) (es : List (Nat × String)) (acc : GoMap)
    (k : Nat) :
    GoMap.get (n.dumpLoop es acc) k =
      if k ∈ GoMap.keys es then
        (match n.entryFor k with
          | some v => some v
          | none => GoMap.get acc k)
      else GoMap.get acc k := by
  induction es generalizing acc with
  | nil => simp [node.dumpLoop, GoMap.keys]
  | cons hd tl ih =>
    obtain ⟨k1, v1⟩ := hd
    have hkeys : GoMap.keys ((k1, v1) :: tl) = k1 :: GoMap.keys tl := rfl
    rw [hkeys]
    unfold node.dumpLoop
    by_cases hself : k1 = n.nodeID
    · rw [if_pos hself, ih, GoMap.get_set]
      by_cases hk : k1 = k
      · have hent : n.entryFor k = some n.raftAddress := by
          simp [node.entryFor, ← hk, hself]
        simp [hk, hent]
      · have hk2 : ¬ k = k1 := fun h => hk h.symm
        simp [hk, hk2]
    · rw [if_neg hself]
      rcases hres : n.nodeRegistry.Resolve n.clusterID k1 with ⟨v, c, _ | e⟩
      · simp only []
        rw [ih, GoMap.get_set]
        by_cases hk : k1 = k
        · have hent : n.entryFor k = some v := by
            subst hk
            simp [node.entryFor, hself, hres]
          simp [hk, hent]
        · have hk2 : ¬ k = k1 := fun h => hk h.symm
          simp [hk, hk2]
      · simp only []
        rw [ih]
        by_cases hk : k1 = k
        · have hent : n.entryFor k = none := by
            subst hk
            simp [node.entryFor, hself, hres]
          simp [hk, hent]
        · have hk2 : ¬ k = k1 := fun h => hk h.symm
          simp [hk2]

/-- Lookup in the address map of `dumpRaftInfoToLog`. -/
theorem node.get_dumpAddrMap (n : node) (k : Nat) :
    GoMap.get n.dumpAddrMap k =
      if k ∈ GoMap.keys n.sm.GetMembership.Addresses then n.entryFor k
      else none := by
  unfold node.dumpAddrMap
  rw [node.get_dumpLoop]
  by_cases h : k ∈ GoMap.keys n.sm.GetMembership.Addresses
  · rw [if_pos h, if_pos h]
    cases n.entryFor k <;> simp [GoMap.make, GoMap.get]
  · rw [if_neg h, if_neg h]
    simp [GoMap.make, GoMap.get]

/-- C3 (amended): when the node has a raft peer, the record handed to the log
sink carries the address map of the loop, and that map holds exactly: for the
node's own id, if it is a key of the membership `Addresses`, the configured
raft address; for every other key of `Addresses` whose resolution reports no
error, the resolved address; nothing for a key whose resolution fails, and
nothing for an id that is not a key of `Addresses`. -/
theorem dumpInfo_addrMap_exact (n : node) (p : Peer) (sink : LogSink)
    (hp : n.p = some p) :
    n.DumpRaftInfoToLog sink = Result.ok (sink ++ [⟨p, n.dumpAddrMap⟩]) ∧
    ∀ k : Nat,
      (k ∉ GoMap.keys n.sm.GetMembership.Addresses →
        GoMap.get n.dumpAddrMap k = none) ∧
      (k ∈ GoMap.keys n.sm.GetMembership.Addresses → k = n.nodeID →
        GoMap.get n.dumpAddrMap k = some n.raftAddress) ∧
      (k ∈ GoMap.keys n.sm.GetMembership.Addresses → k ≠ n.nodeID →
        ∀ v c, n.nodeRegistry.Resolve n.clusterID k = (v, c, none) →
          GoMap.get n.dumpAddrMap k = some v) ∧
      (k ∈ GoMap.keys n.sm.GetMembership.Addresses → k ≠ n.nodeID →
        (n.nodeRegistry.Resolve n.clusterID k).2.2 ≠ none →
          GoMap.get n.dumpAddrMap k = none) := by
  refine ⟨?_, fun k => ⟨?_, ?_, ?_, ?_⟩⟩
  · simp [node.DumpRaftInfoToLog, node.dumpRaftInfoToLog, hp,
      Peer.DumpRaftInfoToLog]
  · intro hk
    rw [node.get_dumpAddrMap, if_neg hk]
  · intro hk hself
    rw [node.get_dumpAddrMap, if_pos hk]
    simp [node.entryFor, hself]
  · intro hk hself v c hres
    rw [node.get_dumpAddrMap, if_pos hk]
    simp [node.entryFor, hself, hres]
  · intro hk hself hres
    rw [node.get_dumpAddrMap, if_pos hk]
    rcases h : n.nodeRegistry.Resolve n.clusterID k with ⟨v, c, _ | e⟩
    · rw [h] at hres
      exact absurd rfl hres
    · simp [node.entryFor, hself, h]

/-- Witness of `dumpInfo_addrMap_exact`: replica 1 with members 3, 1, 2 and a
resolver that knows replica 2 only. The map holds the own address for 1, the
resolved address for 2, and nothing for 3 (resolution fails) and for 7 (not a
member). -/
theorem dumpInfo_addrMap_exact_witness :
    sampleNode.p = some samplePeer ∧
    sampleNode.DumpRaftInfoToLog []
      = Result.ok [⟨samplePeer, sampleNode.dumpAddrMap⟩] ∧
    GoMap.get sampleNode.dumpAddrMap 7 = none ∧
    GoMap.get sampleNode.dumpAddrMap 1 = some "10.0.0.1:9000" ∧
    GoMap.get sampleNode.dumpAddrMap 2 = some "10.0.0.2:9000" ∧
    GoMap.get sampleNode.dumpAddrMap 3 = none :=
  ⟨rfl,
    (dumpInfo_addrMap_exact sampleNode samplePeer [] rfl).1,
    ((dumpInfo_addrMap_exact sampleNode samplePeer [] rfl).2 7).1 (by decide),
    ((dumpInfo_addrMap_exact sampleNode samplePeer [] rfl).2 1).2.1
      (by decide) rfl,
    ((dumpInfo_addrMap_exact sampleNode samplePeer [] rfl).2 2).2.2.1
      (by decide) (by decide) "10.0.0.2:9000" "key-2" rfl,
    ((dumpInfo_addrMap_exact sampleNode samplePeer [] rfl).2 3).2.2.2
      (by decide) (by decide) (by decide)⟩

/-- Counterexample to C3 as stated: replica 9 is not a key of the `Addresses`
map of its membership view; the map handed to the log sink then holds the
resolved peer 2 only, and no entry for the node itself. -/
theorem dumpInfo_self_entry_absent :
    observerNode.DumpRaftInfoToLog []
      = Result.ok [⟨samplePeer, [(2, "10.0.0.2:9000")]⟩] ∧
    GoMap.get [(2, "10.0.0.2:9000")] observerNode.nodeID = none := by
  decide

/-- C8 (amended): `DumpRaftInfoToLog` returns normally for every node and
every behaviour of the resolver, and its result carries no resolution error;
when the node has a raft peer, exactly one record, the address map with the
peer state, is appended to the log sink; when the peer is nil, the sink is
left as it was. -/
theorem dumpInfo_returns (n : node) (sink : LogSink) :
    (n.DumpRaftInfoToLog sink).returns = true ∧
    (∀ p, n.p = some p →
      n.DumpRaftInfoToLog sink = Result.ok (sink ++ [⟨p, n.dumpAddrMap⟩])) ∧
    (n.p = none → n.DumpRaftInfoToLog sink = Result.ok sink) := by
  unfold node.DumpRaftInfoToLog node.dumpRaftInfoToLog
  cases hp : n.p with
  | none => simp [Result.returns]
  | some q => simp [Result.returns, Peer.DumpRaftInfoToLog]

/-- Witness of `dumpInfo_returns`: with a peer one record is emitted although
the resolution of replica 3 fails; without a peer nothing is emitted. -/
theorem dumpInfo_returns_witness :
    sampleNode.p = some samplePeer ∧
    (sampleNode.nodeRegistry.Resolve 100 3).2.2 = some "address not resolved" ∧
    sampleNode.DumpRaftInfoToLog []
      = Result.ok [⟨samplePeer, sampleNode.dumpAddrMap⟩] ∧
    peerlessNode.p = none ∧
    peerlessNode.DumpRaftInfoToLog [] = Result.ok [] :=
  ⟨rfl, rfl, (dumpInfo_returns sampleNode []).2.1 samplePeer rfl, rfl,
    (dumpInfo_returns peerlessNode []).2.2 rfl⟩

/-- Counterexample to C8 as stated: a node whose raft peer is nil returns
from `DumpRaftInfoToLog` with nothing emitted to the log sink. -/
theorem dumpInfo_nil_peer_emits_nothing :
    peerlessNode.p = none ∧
    peerlessNode.DumpRaftInfoToLog ([] : LogSink) = Result.ok [] := by
  decide

/-! ## Membership digest -/

/-- Keys after an assignment. -/
theorem GoMap.mem_keys_set (m : GoMap) (k : Nat) (v : String) (k2 : Nat) :
    k2 ∈ GoMap.keys (GoMap.set m k v) ↔ k2 = k ∨ k2 ∈ GoMap.keys m := by
  induction m with
  | nil => simp [GoMap.set, GoMap.keys]
  | cons hd tl ih =>
    obtain ⟨k1, v1⟩ := hd
    have ih2 : k2 ∈ List.map Prod.fst (GoMap.set tl k v) ↔
        k2 = k ∨ k2 ∈ List.map Prod.fst tl := ih
    by_cases h1 : k1 = k
    · subst h1
      simp [GoMap.set, GoMap.keys]
    · simp only [GoMap.set, GoMap.keys, if_neg h1, List.map_cons,
        List.mem_cons, ih2]
      tauto

/-- An assignment keeps the keys of a map distinct. -/
theorem GoMap.nodup_keys_set (m : GoMap) (k : Nat) (v : String)
    (h : (GoMap.keys m).Nodup) : (GoMap.keys (GoMap.set m k v)).Nodup := by
  induction m with
  | nil => simp [GoMap.set, GoMap.keys]
  | cons hd tl ih =>
    obtain ⟨k1, v1⟩ := hd
    have hk : GoMap.keys ((k1, v1) :: tl) = k1 :: GoMap.keys tl := rfl
    rw [hk, List.nodup_cons] at h
    by_cases h1 : k1 = k
    · subst h1
      have : GoMap.keys (GoMap.set ((k1, v1) :: tl) k1 v) = k1 :: GoMap.keys tl := by
        simp [GoMap.set, GoMap.keys]
      rw [this, List.nodup_cons]
      exact h
    · have : GoMap.keys (GoMap.set ((k1, v1) :: tl) k v)
          = k1 :: GoMap.keys (GoMap.set tl k v) := by
        simp [GoMap.set, GoMap.keys, h1]
      rw [this, List.nodup_cons]
      refine ⟨?_, ih h.2⟩
      rw [GoMap.mem_keys_set]
      rintro (h2 | h2)
      · exact h1 h2
      · exact h.1 h2

/-- A map built by assignments has distinct keys. -/
theorem GoMap.nodup_keys_ofInserts (ins : List (Nat × String)) :
    (GoMap.keys (GoMap.ofInserts ins)).Nodup := by
  have gen : ∀ (l : List (Nat × String)) (m : GoMap), (GoMap.keys m).Nodup →
      (GoMap.keys (l.foldl (fun m kv => GoMap.set m kv.1 kv.2) m)).Nodup := by
    intro l
    induction l with
    | nil => intro m hm; exact hm
    | cons hd tl ih =>
      intro m hm
      exact ih _ (GoMap.nodup_keys_set m hd.1 hd.2 hm)
  exact gen ins GoMap.make (by simp [GoMap.make, GoMap.keys])

/-- An id is a key of a map exactly when its lookup finds an entry. -/
theorem GoMap.mem_keys_iff (m : GoMap) (k : Nat) :
    k ∈ GoMap.keys m ↔ GoMap.get m k ≠ none := by
  induction m with
  | nil => simp [GoMap.keys, GoMap.get]
  | cons hd tl ih =>
    obtain ⟨k1, v1⟩ := hd
    have ih2 : k ∈ List.map Prod.fst tl ↔ GoMap.get tl k ≠ none := ih
    by_cases h1 : k1 = k
    · subst h1
      simp [GoMap.keys, GoMap.get]
    · have h2 : ¬ k = k1 := fun h => h1 h.symm
      simp only [GoMap.keys, GoMap.get, if_neg h1, List.map_cons,
        List.mem_cons, ih2]
      tauto

/-- Two maps with distinct keys and the same lookups have the same canonical
serialization. -/
theorem GoMap.canonical_eq (m1 m2 : GoMap) (d1 : (GoMap.keys m1).Nodup)
    (d2 : (GoMap.keys m2).Nodup)
    (hget : ∀ k, GoMap.get m1 k = GoMap.get m2 k) :
    GoMap.canonical m1 = GoMap.canonical m2 := by
  have hperm : (GoMap.keys m1).Perm (GoMap.keys m2) := by
    rw [List.perm_ext_iff_of_nodup d1 d2]
    intro k
    rw [GoMap.mem_keys_iff, GoMap.mem_keys_iff, hget]
  have hsorted : GoMap.sortedKeys m1 = GoMap.sortedKeys m2 := by
    unfold GoMap.sortedKeys
    apply List.eq_of_perm_of_sorted (r := fun a b : Nat => a ≤ b)
    · exact ((List.perm_insertionSort _ _).trans hperm).trans
        (List.perm_insertionSort _ _).symm
    · exact List.sorted_insertionSort _ _
    · exact List.sorted_insertionSort _ _
  unfold GoMap.canonical
  rw [hsorted]
  apply List.map_congr_left
  intro k _
  rw [hget]

/-- C7: two replicas whose membership `Addresses` maps were built by
sequences of assignments and hold the same id-to-address pairs (every id looks
up the same in both) have the same membership hash, whatever the order of the
assignments. -/
theorem membershipHash_order_independent (digest : List (Nat × String) → Nat)
    (n1 n2 : node) (ins1 ins2 : List (Nat × String))
    (h1 : n1.sm.GetMembership.Addresses = GoMap.ofInserts ins1)
    (h2 : n2.sm.GetMembership.Addresses = GoMap.ofInserts ins2)
    (hsame : ∀ k, GoMap.get (GoMap.ofInserts ins1) k
      = GoMap.get (GoMap.ofInserts ins2) k) :
    n1.GetMembershipHash digest = n2.GetMembershipHash digest := by
  unfold node.GetMembershipHash node.getMembershipHash
    StateMachine.GetMembershipHash
  rw [h1, h2, GoMap.canonical_eq _ _ (GoMap.nodup_keys_ofInserts ins1)
    (GoMap.nodup_keys_ofInserts ins2) hsame]

/-- Witness of `membershipHash_order_independent`: the members 1, 2, 3
inserted in two different orders give two different entry orders and the same
membership hash. -/
theorem membershipHash_order_independent_witness :
    replicaA.sm.GetMembership.Addresses ≠ replicaB.sm.GetMembership.Addresses ∧
    replicaA.GetMembershipHash sampleDigest
      = replicaB.GetMembershipHash sampleDigest :=
  ⟨by decide,
    membershipHash_order_independent sampleDigest replicaA replicaB
      [(1, "10.0.0.1:9000"), (2, "10.0.0.2:9000"), (3, "10.0.0.3:9000")]
      [(3, "10.0.0.3:9000"), (1, "10.0.0.1:9000"), (2, "10.0.0.2:9000")]
      rfl rfl
      (by
        intro k
        simp only [GoMap.ofInserts, GoMap.make, List.foldl, GoMap.set,
          GoMap.get]
        by_cases h1 : 1 = k
        · subst h1; simp [GoMap.get]
        · by_cases h2 : 2 = k
          · subst h2; simp [GoMap.get]
          · by_cases h3 : 3 = k
            · subst h3; simp [GoMap.get]
            · simp [GoMap.get, h1, h2, h3])⟩

/-! ## Transport hooks -/

/-- C6: on a node host whose transport is the transport of the transport
package, registering message-batch hook `A` and then `B` returns a host whose
transport has `B` in the message-batch slot and the stream-chunk slot as it
was; every later batch send invokes `B` and nothing else, so `A`, if it is
another hook, is never invoked. The same holds for stream-chunk hooks `C`
then `D`, which leave the message-batch slot as it was. -/
theorem hook_last_write_wins (nh : NodeHost) (t : Transport)
    (ht : nh.transport = ITransport.transport t)
    (A B : SendMessageBatchFunc) (C D : StreamChunkSendFunc) :
    (((nh.SetTransportDropBatchHook A).bind
          (fun nh1 => nh1.SetTransportDropBatchHook B))
        = Result.ok ⟨ITransport.transport ⟨some B, t.preStreamChunkSend⟩⟩ ∧
      (∀ mb, Transport.sendMessageBatch ⟨some B, t.preStreamChunkSend⟩ mb
        = ([B.name], (B.run mb).apply mb)) ∧
      (∀ mbs, Transport.batchHooksInvoked ⟨some B, t.preStreamChunkSend⟩ mbs
        = List.replicate mbs.length B.name) ∧
      (A.name ≠ B.name → ∀ mbs,
        A.name ∉ Transport.batchHooksInvoked ⟨some B, t.preStreamChunkSend⟩ mbs)) ∧
    (((nh.SetPreStreamChunkSendHook C).bind
          (fun nh1 => nh1.SetPreStreamChunkSendHook D))
        = Result.ok ⟨ITransport.transport ⟨t.preSendMessageBatch, some D⟩⟩ ∧
      (∀ c, Transport.sendChunk ⟨t.preSendMessageBatch, some D⟩ c
        = ([D.name], (D.run c).apply c)) ∧
      (∀ cs, Transport.chunkHooksInvoked ⟨t.preSendMessageBatch, some D⟩ cs
        = List.replicate cs.length D.name) ∧
      (C.name ≠ D.name → ∀ cs,
        C.name ∉ Transport.chunkHooksInvoked ⟨t.preSendMessageBatch, some D⟩ cs)) := by
  have hb : ∀ (t2 : Transport), t2.preSendMessageBatch = some B →
      ∀ mbs, t2.batchHooksInvoked mbs = List.replicate mbs.length B.name := by
    intro t2 h2 mbs
    induction mbs with
    | nil => rfl
    | cons hd tl ih =>
      simp only [Transport.batchHooksInvoked, List.map_cons, List.flatten,
        List.length_cons, List.replicate_succ] at ih ⊢
      rw [ih]
      simp [Transport.sendMessageBatch, h2]
  have hc : ∀ (t2 : Transport), t2.preStreamChunkSend = some D →
      ∀ cs, t2.chunkHooksInvoked cs = List.replicate cs.length D.name := by
    intro t2 h2 cs
    induction cs with
    | nil => rfl
    | cons hd tl ih =>
      simp only [Transport.chunkHooksInvoked, List.map_cons, List.flatten,
        List.length_cons, List.replicate_succ] at ih ⊢
      rw [ih]
      simp [Transport.sendChunk, h2]
  constructor
  · refine ⟨?_, ?_, hb _ rfl, ?_⟩
    · simp [NodeHost.SetTransportDropBatchHook, ht, Result.bind,
        Transport.SetPreSendMessageBatchHook]
    · intro mb
      simp [Transport.sendMessageBatch]
    · intro hne mbs hmem
      rw [hb _ rfl] at hmem
      exact hne (List.eq_of_mem_replicate hmem)
  · refine ⟨?_, ?_, hc _ rfl, ?_⟩
    · simp [NodeHost.SetPreStreamChunkSendHook, ht, Result.bind,
        Transport.SetPreStreamChunkSendHook]
    · intro c
      simp [Transport.sendChunk]
    · intro hne cs hmem
      rw [hc _ rfl] at hmem
      exact hne (List.eq_of_mem_replicate hmem)

/-- Witness of `hook_last_write_wins`: on a host without hooks, after the
dropping hook and then the passing hook are registered, two batch sends invoke
the passing hook twice and the dropping hook never; likewise for the two
chunk hooks. -/
theorem hook_last_write_wins_witness :
    sampleHost.transport = ITransport.transport ⟨none, none⟩ ∧
    dropAll.name ≠ passAll.name ∧
    Transport.batchHooksInvoked ⟨some passAll, none⟩ [[1], [2, 3]] = [2, 2] ∧
    dropAll.name ∉
      Transport.batchHooksInvoked ⟨some passAll, none⟩ [[1], [2, 3]] ∧
    dropChunks.name ≠ truncateChunks.name ∧
    Transport.sendChunk ⟨none, some truncateChunks⟩ [5, 6]
      = ([4], some [5]) ∧
    dropChunks.name ∉
      Transport.chunkHooksInvoked ⟨none, some truncateChunks⟩ [[5, 6]] :=
  ⟨rfl, by decide,
    (hook_last_write_wins sampleHost ⟨none, none⟩ rfl dropAll passAll
      dropChunks truncateChunks).1.2.2.1 [[1], [2, 3]],
    (hook_last_write_wins sampleHost ⟨none, none⟩ rfl dropAll passAll
      dropChunks truncateChunks).1.2.2.2 (by decide) [[1], [2, 3]],
    by decide,
    (hook_last_write_wins sampleHost ⟨none, none⟩ rfl dropAll passAll
      dropChunks truncateChunks).2.2.1 [5, 6],
    (hook_last_write_wins sampleHost ⟨none, none⟩ rfl dropAll passAll
      dropChunks truncateChunks).2.2.2.2 (by decide) [[5, 6]]⟩

end Dragonboat
